import Mathlib

/-!
# Verification of the ticket-resale marketplace backend

Shallow embedding of the trust-and-rating core of the backend
(`backend/routes/{auth,users,listings,messages}.py` over the data model in
`backend/models/`).  Each route handler becomes a pure Lean function over an
explicit database state `DB`; a handler that raises `HTTPException` is
modelled as `Except ApiError`, and a raised exception leaves the state
unchanged (the per-request session is configured with `autoflush=False` and
is closed without commit on every error path, so nothing is persisted).

Numeric conventions: SQL integer columns are `Nat`/`Int`; the `price` column
(`Numeric(10,2)`) and the computed average rating are exact rationals `ℚ`
(the route computes `float(avg)`; exact rational arithmetic realises the
intended value — the one place the schema cannot hold it is recorded in the
theorem about the `average_rating` column).  Timestamps are an abstract
clock `DB.now : Nat` (`datetime.utcnow()`), and `DB.today : Int` stands for
`date.today()`.  The acting identity is passed as an already-resolved user
id, as the `get_current_user` dependency does; credential mechanics are
outside the modelled core.
-/

deriving instance DecidableEq for Except

namespace TicketApp

/-- Error classes raised by the route handlers, by HTTP status:
404 `notFound`, 403 `forbidden`, 400 `badRequest`, 401 `unauthorized`.
`conflict` (409) appears in the spec's taxonomy for unique-constraint
violations; no handler in the source ever raises it. -/
inductive ApiError where
  | notFound
  | forbidden
  | badRequest
  | unauthorized
  | conflict
deriving DecidableEq, Repr

/-- Row of the `users` table (`models/user.py`). -/
structure UserRec where
  id : Nat
  username : String
  email : String
  password_hash : String
  is_verified : Bool
  created_at : Nat
  updated_at : Nat
deriving DecidableEq, Repr

/-- Row of the `user_profiles` table (`models/user.py`).  The source column
`average_rating` is declared `Column(Integer)` but every writer and reader
treats it as a float; it is carried here as an exact rational. -/
structure ProfileRec where
  id : Nat
  user_id : Nat
  bio : Option String
  profile_picture_url : Option String
  total_sales : Nat
  is_verified_seller : Bool
  average_rating : ℚ
  created_at : Nat
  updated_at : Nat
deriving DecidableEq, Repr

/-- Row of the `listings` table (`models/listing.py`).  The source column
named `section` is rendered `section_` (`section` is reserved in Lean). -/
structure ListingRec where
  id : Nat
  seller_id : Nat
  artist_name : String
  concert_date : Int
  venue_name : String
  section_ : Option String
  row : Option String
  seat_number : Option String
  price : ℚ
  quantity_available : Int
  description : Option String
  is_available : Bool
  created_at : Nat
  updated_at : Nat
deriving DecidableEq, Repr

/-- Row of the `messages` table (`models/message.py`). -/
structure MessageRec where
  id : Nat
  sender_id : Nat
  receiver_id : Nat
  listing_id : Option Nat
  message_text : String
  is_read : Bool
  created_at : Nat
deriving DecidableEq, Repr

/-- Row of the `reviews` table (`models/review.py`). -/
structure ReviewRec where
  id : Nat
  reviewer_id : Nat
  reviewed_user_id : Nat
  listing_id : Option Nat
  rating : Int
  comment : Option String
  created_at : Nat
deriving DecidableEq, Repr

/-- Row of the `seller_proof` table (`models/seller_proof.py`). -/
structure ProofRec where
  id : Nat
  seller_id : Nat
  proof_image_url : String
  description : Option String
  created_at : Nat
deriving DecidableEq, Repr

/-- The relational store: one list per table, per-table autoincrement
counters, and the request clock. -/
structure DB where
  users : List UserRec
  profiles : List ProfileRec
  listings : List ListingRec
  messages : List MessageRec
  reviews : List ReviewRec
  proofs : List ProofRec
  nextUserId : Nat
  nextProfileId : Nat
  nextListingId : Nat
  nextMessageId : Nat
  nextReviewId : Nat
  nextProofId : Nat
  now : Nat
  today : Int
deriving DecidableEq, Repr

/-- `query(...).first()` followed by in-place mutation of the returned ORM
object: rewrite the first element satisfying `p`, leave the rest alone. -/
def updateFirst (p : α → Bool) (f : α → α) : List α → List α
  | [] => []
  | x :: xs => if p x then f x :: xs else x :: updateFirst p f xs

/-- `query(...).first()` followed by `db.delete(obj)`: drop the first
element satisfying `p`. -/
def eraseFirstP (p : α → Bool) : List α → List α
  | [] => []
  | x :: xs => if p x then xs else x :: eraseFirstP p xs

def lookupUser (db : DB) (uid : Nat) : Option UserRec :=
  db.users.find? (fun u => u.id == uid)

def lookupProfile (db : DB) (uid : Nat) : Option ProfileRec :=
  db.profiles.find? (fun p => p.user_id == uid)

def lookupListing (db : DB) (lid : Nat) : Option ListingRec :=
  db.listings.find? (fun l => l.id == lid)

def lookupMessage (db : DB) (mid : Nat) : Option MessageRec :=
  db.messages.find? (fun m => m.id == mid)

/-- All reviews whose `reviewed_user_id` is `uid`. -/
def reviewsFor (db : DB) (uid : Nat) : List ReviewRec :=
  db.reviews.filter (fun r => r.reviewed_user_id == uid)

/-- Python truthiness of an `Optional[int]` request field
(`if request.listing_id:` is taken for neither `None` nor `0`). -/
def truthy : Option Nat → Bool
  | none => false
  | some n => n != 0

/-- The profile mutation performed by `update_seller_rating` once the
profile row is found: store the recomputed average, latch
`is_verified_seller` to true when the count ≥ 5 and average ≥ 4.5 rule
fires (and only then touch it), stamp `updated_at`. -/
def recomputeProfile (newAvg : ℚ) (review_count : Nat) (now : Nat)
    (p : ProfileRec) : ProfileRec :=
  { p with
    average_rating := newAvg
    is_verified_seller :=
      if review_count ≥ 5 ∧ newAvg ≥ 9/2 then true
      else p.is_verified_seller
    updated_at := now }

/-- `users.py::update_seller_rating`.  Recomputes the subject's average from
the full review set (`AVG` returns `NULL`, i.e. `none`, on an empty set),
then applies the count ≥ 5 and average ≥ 4.5 auto-verification rule; if the
subject has no profile row the whole update is skipped. -/
def update_seller_rating (user_id : Nat) (db : DB) : DB :=
  let revs := reviewsFor db user_id
  let avg_rating : Option ℚ :=
    if revs.isEmpty then none
    else some ((revs.map (fun r => (r.rating : ℚ))).sum / (revs.length : ℚ))
  match lookupProfile db user_id with
  | none => db
  | some _ =>
    let newAvg : ℚ :=
      match avg_rating with
      | some a => if a = 0 then 0 else a
      | none => 0
    { db with
      profiles :=
        updateFirst (fun p => p.user_id == user_id)
          (recomputeProfile newAvg revs.length db.now) db.profiles }

/-- `users.py::create_review` (`POST /users/\x7buser_id\x7d/reviews`).
Check order as in the source: self-review, then rating range, then
existence of the reviewed user, then (truthy) listing existence; on success
the review is appended and `update_seller_rating` runs synchronously. -/
def create_review (current_user : Nat) (user_id : Nat) (listing_id : Option Nat)
    (rating : Int) (comment : Option String) (db : DB) :
    Except ApiError (ReviewRec × DB) :=
  if user_id == current_user then .error .badRequest
  else if rating < 1 ∨ rating > 5 then .error .badRequest
  else
    match lookupUser db user_id with
    | none => .error .notFound
    | some _ =>
      if truthy listing_id && (lookupListing db (listing_id.getD 0)).isNone then
        .error .notFound
      else
        let new_review : ReviewRec :=
          { id := db.nextReviewId
            reviewer_id := current_user
            reviewed_user_id := user_id
            listing_id := listing_id
            rating := rating
            comment := comment
            created_at := db.now }
        let db1 := { db with
          reviews := db.reviews ++ [new_review]
          nextReviewId := db.nextReviewId + 1 }
        .ok (new_review, update_seller_rating user_id db1)

/-- Request body of `PUT /listings/\x7blisting_id\x7d` (all fields optional). -/
structure ListingUpdateReq where
  price : Option ℚ := none
  quantity_available : Option Int := none
  description : Option String := none
  is_available : Option Bool := none
deriving DecidableEq, Repr

/-- Request body of `POST /listings`. -/
structure ListingCreateReq where
  artist_name : String
  concert_date : Int
  venue_name : String
  section_ : Option String := none
  row : Option String := none
  seat_number : Option String := none
  price : ℚ
  quantity_available : Int := 1
  description : Option String := none
deriving DecidableEq, Repr

/-- The field-by-field mutation block of `listings.py::update_listing`:
each provided request field overwrites the listing field, then
`updated_at` is stamped. -/
def applyListingUpdate (req : ListingUpdateReq) (now : Nat) (l : ListingRec) :
    ListingRec :=
  let l1 := match req.price with
    | some p => { l with price := p }
    | none => l
  let l2 := match req.quantity_available with
    | some q => { l1 with quantity_available := q }
    | none => l1
  let l3 := match req.description with
    | some d => { l2 with description := some d }
    | none => l2
  let l4 := match req.is_available with
    | some b => { l3 with is_available := b }
    | none => l3
  { l4 with updated_at := now }

/-- `listings.py::create_listing` (`POST /listings`): future concert date,
positive price and positive quantity, then insert with
`is_available=True`. -/
def create_listing (current_user : Nat) (req : ListingCreateReq) (db : DB) :
    Except ApiError (ListingRec × DB) :=
  if req.concert_date ≤ db.today then .error .badRequest
  else if req.price ≤ 0 then .error .badRequest
  else if req.quantity_available ≤ 0 then .error .badRequest
  else
    let nl : ListingRec :=
      { id := db.nextListingId
        seller_id := current_user
        artist_name := req.artist_name
        concert_date := req.concert_date
        venue_name := req.venue_name
        section_ := req.section_
        row := req.row
        seat_number := req.seat_number
        price := req.price
        quantity_available := req.quantity_available
        description := req.description
        is_available := true
        created_at := db.now
        updated_at := db.now }
    .ok (nl, { db with
      listings := db.listings ++ [nl]
      nextListingId := db.nextListingId + 1 })

/-- `listings.py::update_listing` (`PUT /listings/\x7blisting_id\x7d`):
404 if absent, 403 if the actor is not the seller, 400 if a provided price
is ≤ 0 or a provided quantity is < 0 (zero is accepted), else apply the
provided fields.  An error path never commits, so it leaves the state
unchanged. -/
def update_listing (current_user : Nat) (lid : Nat) (req : ListingUpdateReq)
    (db : DB) : Except ApiError (ListingRec × DB) :=
  match lookupListing db lid with
  | none => .error .notFound
  | some l =>
    if l.seller_id ≠ current_user then .error .forbidden
    else if (match req.price with | some p => decide (p ≤ 0) | none => false) then
      .error .badRequest
    else if (match req.quantity_available with
        | some q => decide (q < 0)
        | none => false) then
      .error .badRequest
    else
      .ok (applyListingUpdate req db.now l,
        { db with
          listings :=
            updateFirst (fun x => x.id == lid) (applyListingUpdate req db.now)
              db.listings })

/-- `listings.py::delete_listing` (`DELETE /listings/\x7blisting_id\x7d`):
404 if absent, 403 if the actor is not the seller, else delete; the
relationship declarations cascade the deletion to the listing's messages
and reviews. -/
def delete_listing (current_user : Nat) (lid : Nat) (db : DB) :
    Except ApiError DB :=
  match lookupListing db lid with
  | none => .error .notFound
  | some l =>
    if l.seller_id ≠ current_user then .error .forbidden
    else
      .ok { db with
        listings := eraseFirstP (fun x => x.id == lid) db.listings
        messages := db.messages.filter (fun m => m.listing_id ≠ some l.id)
        reviews := db.reviews.filter (fun r => r.listing_id ≠ some l.id) }

/-- `messages.py::send_message` (`POST /messages`): no self-message,
receiver must exist, a truthy listing id must exist, text must not be
blank; the new message starts unread. -/
def send_message (current_user : Nat) (receiver_id : Nat)
    (message_text : String) (listing_id : Option Nat) (db : DB) :
    Except ApiError (MessageRec × DB) :=
  if receiver_id == current_user then .error .badRequest
  else
    match lookupUser db receiver_id with
    | none => .error .notFound
    | some _ =>
      if truthy listing_id && (lookupListing db (listing_id.getD 0)).isNone then
        .error .notFound
      else if message_text.trim.isEmpty then .error .badRequest
      else
        let nm : MessageRec :=
          { id := db.nextMessageId
            sender_id := current_user
            receiver_id := receiver_id
            listing_id := listing_id
            message_text := message_text
            is_read := false
            created_at := db.now }
        .ok (nm, { db with
          messages := db.messages ++ [nm]
          nextMessageId := db.nextMessageId + 1 })

/-- Messages exchanged between `a` and `b`, in either direction. -/
def betweenUsers (a b : Nat) (m : MessageRec) : Bool :=
  (m.sender_id == a && m.receiver_id == b) ||
  (m.sender_id == b && m.receiver_id == a)

def insertByCreated (m : MessageRec) : List MessageRec → List MessageRec
  | [] => [m]
  | x :: xs =>
    if m.created_at < x.created_at then m :: x :: xs
    else x :: insertByCreated m xs

/-- `order_by(Message.created_at.asc())`. -/
def sortByCreated : List MessageRec → List MessageRec
  | [] => []
  | x :: xs => insertByCreated x (sortByCreated xs)

/-- The loop body of `get_conversation`'s bulk update: an unread message
from the counterparty to the actor is marked read, any other message is
left alone. -/
def markIfUnread (current_user other_user_id : Nat) (m : MessageRec) :
    MessageRec :=
  if m.sender_id == other_user_id && m.receiver_id == current_user
      && !m.is_read then
    { m with is_read := true }
  else m

/-- `messages.py::get_conversation`
(`GET /messages/conversation/\x7bother_user_id\x7d`): 404 if the
counterparty does not exist; every unread message sent by the counterparty
to the actor is marked read in the same operation.  The handler selects the
conversation before the bulk update, but the ORM identity map makes the
serialized rows reflect the update, so the returned list is the
conversation as it stands after the marking. -/
def get_conversation (current_user : Nat) (other_user_id : Nat) (db : DB) :
    Except ApiError (List MessageRec × DB) :=
  match lookupUser db other_user_id with
  | none => .error .notFound
  | some _ =>
    let msgs := db.messages.map (markIfUnread current_user other_user_id)
    .ok (sortByCreated (msgs.filter (betweenUsers current_user other_user_id)),
      { db with messages := msgs })

/-- `messages.py::get_message` (`GET /messages/\x7bmessage_id\x7d`): only a
party to the message may view it; a receiver-side view marks it read. -/
def get_message (current_user : Nat) (mid : Nat) (db : DB) :
    Except ApiError (MessageRec × DB) :=
  match lookupMessage db mid with
  | none => .error .notFound
  | some m =>
    if m.sender_id ≠ current_user ∧ m.receiver_id ≠ current_user then
      .error .forbidden
    else if m.receiver_id == current_user && !m.is_read then
      .ok ({ m with is_read := true },
        { db with
          messages :=
            updateFirst (fun x => x.id == mid) (fun x => { x with is_read := true })
              db.messages })
    else .ok (m, db)

/-- `messages.py::mark_as_read` (`PUT /messages/\x7bmessage_id\x7d/read`):
only the receiver may mark; already-read messages are left read. -/
def mark_as_read (current_user : Nat) (mid : Nat) (db : DB) :
    Except ApiError (MessageRec × DB) :=
  match lookupMessage db mid with
  | none => .error .notFound
  | some m =>
    if m.receiver_id ≠ current_user then .error .forbidden
    else
      .ok ({ m with is_read := true },
        { db with
          messages :=
            updateFirst (fun x => x.id == mid) (fun x => { x with is_read := true })
              db.messages })

/-- `messages.py::delete_message` (`DELETE /messages/\x7bmessage_id\x7d`):
only a party to the message may delete it. -/
def delete_message (current_user : Nat) (mid : Nat) (db : DB) :
    Except ApiError DB :=
  match lookupMessage db mid with
  | none => .error .notFound
  | some m =>
    if m.sender_id ≠ current_user ∧ m.receiver_id ≠ current_user then
      .error .forbidden
    else .ok { db with messages := eraseFirstP (fun x => x.id == mid) db.messages }

/-- Password hashing is excluded boundary machinery (bcrypt via passlib);
no modelled property depends on the hash value, so it is carried
verbatim. -/
def hash_password (p : String) : String := p

/-- `auth.py::signup` (`POST /auth/signup`): application-level duplicate
pre-checks on username then email, both raising 400; then the user row is
committed, then its profile row (two-step commit as in the source). -/
def signup (username email password : String) (db : DB) :
    Except ApiError (UserRec × DB) :=
  if (db.users.find? (fun u => u.username == username)).isSome then
    .error .badRequest
  else if (db.users.find? (fun u => u.email == email)).isSome then
    .error .badRequest
  else
    let nu : UserRec :=
      { id := db.nextUserId
        username := username
        email := email
        password_hash := hash_password password
        is_verified := false
        created_at := db.now
        updated_at := db.now }
    let db1 := { db with
      users := db.users ++ [nu]
      nextUserId := db.nextUserId + 1 }
    let np : ProfileRec :=
      { id := db1.nextProfileId
        user_id := nu.id
        bio := none
        profile_picture_url := none
        total_sales := 0
        is_verified_seller := false
        average_rating := 0
        created_at := db.now
        updated_at := db.now }
    .ok (nu, { db1 with
      profiles := db1.profiles ++ [np]
      nextProfileId := db1.nextProfileId + 1 })

/-- `users.py::update_user_profile` (`PUT /users/me`): provided `bio` and
`profile_picture_url` overwrite the actor's profile fields. -/
def update_user_profile (current_user : Nat) (bio pic : Option String)
    (db : DB) : Except ApiError (ProfileRec × DB) :=
  match lookupProfile db current_user with
  | none => .error .notFound
  | some p =>
    let f := fun (q : ProfileRec) =>
      let q1 := match bio with
        | some b => { q with bio := some b }
        | none => q
      let q2 := match pic with
        | some u => { q1 with profile_picture_url := some u }
        | none => q1
      { q2 with updated_at := db.now }
    .ok (f p,
      { db with
        profiles :=
          updateFirst (fun q => q.user_id == current_user) f db.profiles })

/-- `users.py::upload_seller_proof` (`POST /users/me/proof`): unconditional
append of a proof row for the actor. -/
def upload_seller_proof (current_user : Nat) (url : String)
    (descr : Option String) (db : DB) : Except ApiError (ProofRec × DB) :=
  let np : ProofRec :=
    { id := db.nextProofId
      seller_id := current_user
      proof_image_url := url
      description := descr
      created_at := db.now }
  .ok (np, { db with
    proofs := db.proofs ++ [np]
    nextProofId := db.nextProofId + 1 })

/-- Every state-mutating endpoint of the system (the remaining endpoints —
profile reads, listing queries, review/proof reads, login — perform no
writes). -/
inductive Op where
  | opSignup (username email password : String)
  | opUpdateProfile (actor : Nat) (bio pic : Option String)
  | opCreateReview (actor target : Nat) (listingId : Option Nat)
      (rating : Int) (comment : Option String)
  | opUploadProof (actor : Nat) (url : String) (descr : Option String)
  | opCreateListing (actor : Nat) (req : ListingCreateReq)
  | opUpdateListing (actor lid : Nat) (req : ListingUpdateReq)
  | opDeleteListing (actor lid : Nat)
  | opSendMessage (actor receiver : Nat) (text : String) (listingId : Option Nat)
  | opGetConversation (actor other : Nat)
  | opGetMessage (actor mid : Nat)
  | opMarkRead (actor mid : Nat)
  | opDeleteMessage (actor mid : Nat)
deriving DecidableEq, Repr

/-- The state reached after handling one request: the handler's post-state
on success, the unchanged state when it raises (no commit happens on an
error path). -/
def step (op : Op) (db : DB) : DB :=
  match op with
  | .opSignup u e p =>
    match signup u e p db with
    | .ok (_, db') => db'
    | .error _ => db
  | .opUpdateProfile a b pic =>
    match update_user_profile a b pic db with
    | .ok (_, db') => db'
    | .error _ => db
  | .opCreateReview a t lid r c =>
    match create_review a t lid r c db with
    | .ok (_, db') => db'
    | .error _ => db
  | .opUploadProof a u d =>
    match upload_seller_proof a u d db with
    | .ok (_, db') => db'
    | .error _ => db
  | .opCreateListing a req =>
    match create_listing a req db with
    | .ok (_, db') => db'
    | .error _ => db
  | .opUpdateListing a lid req =>
    match update_listing a lid req db with
    | .ok (_, db') => db'
    | .error _ => db
  | .opDeleteListing a lid =>
    match delete_listing a lid db with
    | .ok db' => db'
    | .error _ => db
  | .opSendMessage a r t lid =>
    match send_message a r t lid db with
    | .ok (_, db') => db'
    | .error _ => db
  | .opGetConversation a o =>
    match get_conversation a o db with
    | .ok (_, db') => db'
    | .error _ => db
  | .opGetMessage a mid =>
    match get_message a mid db with
    | .ok (_, db') => db'
    | .error _ => db
  | .opMarkRead a mid =>
    match mark_as_read a mid db with
    | .ok (_, db') => db'
    | .error _ => db
  | .opDeleteMessage a mid =>
    match delete_message a mid db with
    | .ok db' => db'
    | .error _ => db

/-! ## A concrete store used to instantiate the theorems -/

def wAlice : UserRec :=
  { id := 1, username := "alice", email := "alice@example.com",
    password_hash := "ha", is_verified := true, created_at := 1, updated_at := 1 }

def wBob : UserRec :=
  { id := 2, username := "bob", email := "bob@example.com",
    password_hash := "hb", is_verified := false, created_at := 2, updated_at := 2 }

/-- A user whose profile row is missing (the 1:1 invariant is not enforced
by the schema; `signup` commits the user before the profile). -/
def wCarol : UserRec :=
  { id := 3, username := "carol", email := "carol@example.com",
    password_hash := "hc", is_verified := false, created_at := 3, updated_at := 3 }

def wProfile1 : ProfileRec :=
  { id := 1, user_id := 1, bio := none, profile_picture_url := none,
    total_sales := 0, is_verified_seller := false, average_rating := 0,
    created_at := 1, updated_at := 1 }

def wProfile2 : ProfileRec :=
  { id := 2, user_id := 2, bio := some "hey", profile_picture_url := none,
    total_sales := 0, is_verified_seller := false, average_rating := 0,
    created_at := 2, updated_at := 2 }

def wListing : ListingRec :=
  { id := 10, seller_id := 1, artist_name := "Band", concert_date := 1000,
    venue_name := "Hall", section_ := none, row := none, seat_number := none,
    price := 50, quantity_available := 2, description := none,
    is_available := true, created_at := 5, updated_at := 5 }

def wMsgA : MessageRec :=
  { id := 1, sender_id := 2, receiver_id := 1, listing_id := some 10,
    message_text := "hi", is_read := false, created_at := 10 }

def wMsgB : MessageRec :=
  { id := 2, sender_id := 1, receiver_id := 2, listing_id := none,
    message_text := "yo", is_read := true, created_at := 20 }

def wdb : DB :=
  { users := [wAlice, wBob, wCarol]
    profiles := [wProfile1, wProfile2]
    listings := [wListing]
    messages := [wMsgA, wMsgB]
    reviews := []
    proofs := []
    nextUserId := 4, nextProfileId := 3, nextListingId := 11
    nextMessageId := 3, nextReviewId := 1, nextProofId := 1
    now := 100, today := 0 }

def noUpdate : ListingUpdateReq := {}

def okQuantity (r : Except ApiError (ListingRec × DB)) : Option Int :=
  match r with
  | .ok (l, _) => some l.quantity_available
  | .error _ => none

def reqZeroQty : ListingUpdateReq := { quantity_available := some 0 }

def reqNegQty : ListingUpdateReq := { quantity_available := some (-1) }

def wMsgARead : MessageRec := { wMsgA with is_read := true }

def wConvDb : DB := { wdb with messages := [wMsgARead, wMsgB] }

def req60 : ListingUpdateReq := { price := some 60 }

def wListing60 : ListingRec := { wListing with price := 60, updated_at := 100 }

def wdb60 : DB := { wdb with listings := [wListing60] }

def wReview1 : ReviewRec :=
  { id := 1, reviewer_id := 1, reviewed_user_id := 2, listing_id := none,
    rating := 5, comment := none, created_at := 11 }

def wReview2 : ReviewRec := { wReview1 with id := 2, created_at := 12 }

def wReview3 : ReviewRec := { wReview1 with id := 3, created_at := 13 }

def wReview4 : ReviewRec := { wReview1 with id := 4, created_at := 14 }

def wReview5 : ReviewRec := { wReview1 with id := 5, created_at := 15 }

/-- User 2's profile after five 5-star reviews: verified. -/
def wProfile2V : ProfileRec :=
  { wProfile2 with average_rating := 5, is_verified_seller := true }

def wdbV : DB :=
  { wdb with
    profiles := [wProfile1, wProfile2V]
    reviews := [wReview1, wReview2, wReview3, wReview4, wReview5]
    nextReviewId := 6 }

/-- User 2's profile after the 6th review (rating 1): the average drops to
26/6 = 13/3 < 4.5, yet the latch holds. -/
def wProfile2V' : ProfileRec :=
  { wProfile2V with average_rating := 13/3, updated_at := 100 }

/-- Scenario: user 1 leaves five 5-star reviews and then one 1-star review
for user 2 (a reviewer may review the same user repeatedly: the ledger has
no uniqueness constraint). -/
def c1db : DB :=
  step (.opCreateReview 1 2 none 1 none)
    (step (.opCreateReview 1 2 none 5 none)
      (step (.opCreateReview 1 2 none 5 none)
        (step (.opCreateReview 1 2 none 5 none)
          (step (.opCreateReview 1 2 none 5 none)
            (step (.opCreateReview 1 2 none 5 none) wdb)))))

/-! ## Generic lemmas about the row-mutation helpers -/

theorem mem_updateFirst {α} {p : α → Bool} {f : α → α} {l : List α} {x : α}
    (hx : x ∈ updateFirst p f l) : x ∈ l ∨ ∃ y ∈ l, p y = true ∧ x = f y := by
  induction l with
  | nil => simp [updateFirst] at hx
  | cons a t ih =>
    by_cases hpa : p a = true
    · simp only [updateFirst, if_pos hpa] at hx
      rcases List.mem_cons.mp hx with hx | hx
      · exact Or.inr ⟨a, List.mem_cons_self a t, hpa, hx⟩
      · exact Or.inl (List.mem_cons_of_mem a hx)
    · simp only [updateFirst, if_neg hpa] at hx
      rcases List.mem_cons.mp hx with hx | hx
      · exact Or.inl (hx ▸ List.mem_cons_self a t)
      · rcases ih hx with h | ⟨y, hy, hpy, hxy⟩
        · exact Or.inl (List.mem_cons_of_mem a h)
        · exact Or.inr ⟨y, List.mem_cons_of_mem a hy, hpy, hxy⟩

theorem mem_eraseFirstP {α} {p : α → Bool} {l : List α} {x : α}
    (hx : x ∈ eraseFirstP p l) : x ∈ l := by
  induction l with
  | nil => simp [eraseFirstP] at hx
  | cons a t ih =>
    by_cases hpa : p a = true
    · simp only [eraseFirstP, if_pos hpa] at hx
      exact List.mem_cons_of_mem a hx
    · simp only [eraseFirstP, if_neg hpa] at hx
      rcases List.mem_cons.mp hx with hx | hx
      · exact hx ▸ List.mem_cons_self a t
      · exact List.mem_cons_of_mem a (ih hx)

theorem find?_updateFirst_self {α} {p : α → Bool} {f : α → α} {l : List α}
    {x : α} (h : l.find? p = some x) (hfx : p (f x) = true) :
    (updateFirst p f l).find? p = some (f x) := by
  induction l with
  | nil => simp at h
  | cons a t ih =>
    by_cases hpa : p a = true
    · rw [List.find?_cons_of_pos t hpa] at h
      injection h with h
      subst h
      simp only [updateFirst, if_pos hpa]
      exact List.find?_cons_of_pos t hfx
    · rw [List.find?_cons_of_neg t hpa] at h
      simp only [updateFirst, if_neg hpa]
      rw [List.find?_cons_of_neg _ hpa]
      exact ih h

theorem updateFirst_decomp {α} {p : α → Bool} {l : List α} {x : α}
    (h : l.find? p = some x) (f : α → α) :
    ∃ pre post, l = pre ++ x :: post ∧ (∀ y ∈ pre, p y = false) ∧
      updateFirst p f l = pre ++ f x :: post := by
  induction l with
  | nil => simp at h
  | cons a t ih =>
    by_cases hpa : p a = true
    · rw [List.find?_cons_of_pos t hpa] at h
      injection h with h
      subst h
      exact ⟨[], t, rfl, by simp, by simp [updateFirst, hpa]⟩
    · rw [List.find?_cons_of_neg t hpa] at h
      rcases ih h with ⟨pre, post, hl, hpre, hup⟩
      refine ⟨a :: pre, post, by simp [hl], ?_, ?_⟩
      · intro y hy
        rcases List.mem_cons.mp hy with hy | hy
        · exact hy ▸ Bool.eq_false_iff.mpr hpa
        · exact hpre y hy
      · simp only [updateFirst, if_neg hpa, hup, List.cons_append]

theorem find?_append_some {α} {p : α → Bool} {l l' : List α} {x : α}
    (h : l.find? p = some x) : (l ++ l').find? p = some x := by
  induction l with
  | nil => simp at h
  | cons a t ih =>
    by_cases hpa : p a = true
    · rw [List.find?_cons_of_pos t hpa] at h
      rw [List.cons_append, List.find?_cons_of_pos _ hpa]
      exact h
    · rw [List.find?_cons_of_neg t hpa] at h
      rw [List.cons_append, List.find?_cons_of_neg _ hpa]
      exact ih h

theorem find?_isSome_of_mem {α} {p : α → Bool} {l : List α} {x : α}
    (hx : x ∈ l) (hp : p x = true) : (l.find? p).isSome = true := by
  induction l with
  | nil => simp at hx
  | cons a t ih =>
    by_cases hpa : p a = true
    · rw [List.find?_cons_of_pos t hpa]
      rfl
    · rw [List.find?_cons_of_neg t hpa]
      rcases List.mem_cons.mp hx with hx | hx
      · exact absurd (hx ▸ hp) hpa
      · exact ih hx

theorem nodup_key_mem_eq {α} {key : α → Nat} {l : List α}
    (h : (l.map key).Nodup) {a b : α} (ha : a ∈ l) (hb : b ∈ l)
    (hk : key a = key b) : a = b := by
  induction l with
  | nil => simp at ha
  | cons x t ih =>
    rw [List.map_cons, List.nodup_cons] at h
    rcases List.mem_cons.mp ha with ha | ha <;>
      rcases List.mem_cons.mp hb with hb | hb
    · exact ha.trans hb.symm
    · have hmem : key x ∈ t.map key := by
        rw [← ha, hk]
        exact List.mem_map_of_mem key hb
      exact absurd hmem h.1
    · have hmem : key x ∈ t.map key := by
        rw [← hb, ← hk]
        exact List.mem_map_of_mem key ha
      exact absurd hmem h.1
    · exact ih h.2 ha hb

/-- A `find?`-by-key lookup after rewriting rows with a key-preserving,
`good`-monotone transformation still yields a `good` row, provided the row
it found before the rewrite was `good`. -/
theorem find?_updateFirst_key_mono {α} {key : α → Nat} {good : α → Bool}
    {q : α → Bool} {f : α → α}
    (hkey : ∀ x, key (f x) = key x)
    (hmono : ∀ x, good x = true → good (f x) = true) (S : Nat) :
    ∀ (l : List α) (p p' : α),
      l.find? (fun r => key r == S) = some p → good p = true →
      (updateFirst q f l).find? (fun r => key r == S) = some p' →
      good p' = true := by
  intro l
  induction l with
  | nil => intro p p' hp; simp at hp
  | cons a t ih =>
    intro p p' hp hgood hp'
    by_cases hka : (key a == S) = true
    · by_cases hqa : q a = true
      · simp only [updateFirst, if_pos hqa] at hp'
        rw [List.find?_cons_of_pos t hka] at hp
        have hkfa : (key (f a) == S) = true := by simpa [hkey] using hka
        rw [List.find?_cons_of_pos t hkfa] at hp'
        injection hp with hp
        injection hp' with hp'
        subst hp
        subst hp'
        exact hmono _ hgood
      · simp only [updateFirst, if_neg hqa] at hp'
        rw [List.find?_cons_of_pos t hka] at hp
        rw [List.find?_cons_of_pos (updateFirst q f t) hka] at hp'
        injection hp with hp
        injection hp' with hp'
        subst hp
        subst hp'
        exact hgood
    · by_cases hqa : q a = true
      · simp only [updateFirst, if_pos hqa] at hp'
        rw [List.find?_cons_of_neg t hka] at hp
        have hkfa : ¬((key (f a) == S) = true) := by simpa [hkey] using hka
        rw [List.find?_cons_of_neg t hkfa] at hp'
        rw [hp] at hp'
        injection hp' with hp'
        subst hp'
        exact hgood
      · simp only [updateFirst, if_neg hqa] at hp'
        rw [List.find?_cons_of_neg t hka] at hp
        rw [List.find?_cons_of_neg (updateFirst q f t) hka] at hp'
        exact ih p p' hp hgood hp'

/-! ## C3 — existence before ownership on listing mutation -/

/-- C3: for every actor and listing id, `update_listing` and
`delete_listing` fail with `notFound` when no such listing exists,
regardless of the actor (so the existence check is evaluated first), and
fail with `forbidden` — leaving the whole store unchanged — when the
listing exists but the actor is not its seller. -/
theorem listing_mutation_guard :
    (∀ (a lid : Nat) (req : ListingUpdateReq) (db : DB),
      lookupListing db lid = none →
      update_listing a lid req db = .error .notFound ∧
      delete_listing a lid db = .error .notFound) ∧
    (∀ (a lid : Nat) (req : ListingUpdateReq) (db : DB) (l : ListingRec),
      lookupListing db lid = some l → l.seller_id ≠ a →
      update_listing a lid req db = .error .forbidden ∧
      delete_listing a lid db = .error .forbidden ∧
      step (.opUpdateListing a lid req) db = db ∧
      step (.opDeleteListing a lid) db = db) := by
  constructor
  · intro a lid req db h
    exact ⟨by simp [update_listing, h], by simp [delete_listing, h]⟩
  · intro a lid req db l h hne
    have hu : update_listing a lid req db = .error .forbidden := by
      simp [update_listing, h, hne]
    have hd : delete_listing a lid db = .error .forbidden := by
      simp [delete_listing, h, hne]
    exact ⟨hu, hd, by simp [step, hu], by simp [step, hd]⟩

/-- C3 witness: listing 999 does not exist in `wdb` (NotFound for actor 2);
listing 10 exists and belongs to user 1, so actor 2 gets Forbidden. -/
theorem listing_mutation_guard_witness :
    update_listing 2 999 noUpdate wdb = .error .notFound ∧
    delete_listing 2 10 wdb = .error .forbidden :=
  ⟨(listing_mutation_guard.1 2 999 noUpdate wdb (by decide)).1,
   (listing_mutation_guard.2 2 10 noUpdate wdb wListing (by decide)
     (by decide)).2.1⟩

/-! ## C6 — rating validation precedes the existence check -/

/-- C6 counterexample: user 99 does not exist in `wdb`, yet
`create_review 1 99 _ 0 _` fails with `badRequest` (the rating check fires
first), not with `notFound` as the claim states. -/
theorem create_review_rating_before_existence_cex :
    lookupUser wdb 99 = none ∧
    create_review 1 99 none 0 none wdb = .error .badRequest ∧
    ApiError.badRequest ≠ ApiError.notFound := by decide

/-- C6 amended: in `create_review` the self-review check and the rating
range check precede the existence check, so an out-of-range rating yields
`badRequest` for every store (whether or not the reviewed user exists);
`notFound` for an absent reviewed user is returned exactly when the rating
is in range. -/
theorem create_review_rating_check_first :
    (∀ (a S : Nat) (lid : Option Nat) (r : Int) (c : Option String) (db : DB),
      S ≠ a → (r < 1 ∨ 5 < r) →
      create_review a S lid r c db = .error .badRequest) ∧
    (∀ (a S : Nat) (lid : Option Nat) (r : Int) (c : Option String) (db : DB),
      S ≠ a → 1 ≤ r → r ≤ 5 → lookupUser db S = none →
      create_review a S lid r c db = .error .notFound) := by
  constructor
  · intro a S lid r c db hne hr
    have hbe : (S == a) = false := by simpa using hne
    have hr' : r < 1 ∨ r > 5 := hr
    simp [create_review, hbe, hr']
  · intro a S lid r c db hne h1 h5 hu
    have hbe : (S == a) = false := by simpa using hne
    have hr : ¬(r < 1 ∨ r > 5) := by omega
    simp [create_review, hbe, hr, hu]

/-- C6 amended witness: rating 7 on absent user 99 gives `badRequest`;
rating 3 on the same absent user gives `notFound`. -/
theorem create_review_rating_check_first_witness :
    create_review 1 99 none 7 none wdb = .error .badRequest ∧
    create_review 1 99 none 3 none wdb = .error .notFound :=
  ⟨create_review_rating_check_first.1 1 99 none 7 none wdb (by decide)
     (Or.inr (by decide)),
   create_review_rating_check_first.2 1 99 none 3 none wdb (by decide)
     (by decide) (by decide) (by decide)⟩

/-! ## C7 — duplicate signup error class -/

/-- C7 counterexample: `wdb` already holds a user named `alice`, and
`signup` with that username fails with `badRequest` (HTTP 400,
`Username already taken`), which is not the `conflict` class the claim
names. -/
theorem signup_conflict_class_cex :
    (∃ u ∈ wdb.users, u.username = "alice") ∧
    signup "alice" "fresh@example.com" "pw" wdb = .error .badRequest ∧
    ApiError.badRequest ≠ ApiError.conflict := by decide

/-- C7 amended: signup with a username or email already belonging to an
existing user fails with `badRequest` (HTTP 400) from the application-level
pre-check — the `badRequest` class rather than `conflict` — and no user or
profile row is created (the store is unchanged). -/
theorem signup_duplicate_rejected (username email password : String) (db : DB)
    (hdup : (∃ u ∈ db.users, u.username = username) ∨
      (∃ u ∈ db.users, u.email = email)) :
    signup username email password db = .error .badRequest ∧
    step (.opSignup username email password) db = db := by
  have hs : signup username email password db = .error .badRequest := by
    by_cases hu : (db.users.find? (fun u => u.username == username)).isSome = true
    · simp [signup, hu]
    · rcases hdup with ⟨u, hmem, he⟩ | ⟨u, hmem, he⟩
      · exact absurd (find?_isSome_of_mem hmem (by simp [he])) hu
      · have he' : (db.users.find? (fun v => v.email == email)).isSome = true :=
          find?_isSome_of_mem hmem (by simp [he])
        simp [signup, hu, he']
  exact ⟨hs, by simp [step, hs]⟩

/-- C7 amended witness: signing up as the existing `alice` is rejected with
`badRequest` and leaves `wdb` unchanged. -/
theorem signup_duplicate_rejected_witness :
    signup "alice" "x@y.z" "pw" wdb = .error .badRequest ∧
    step (.opSignup "alice" "x@y.z" "pw") wdb = wdb :=
  signup_duplicate_rejected "alice" "x@y.z" "pw" wdb (Or.inl (by decide))

/-! ## C8 — quantity validation on update vs create -/

/-- C8 counterexample: the seller updates listing 10 with
`quantity_available = 0`; the call succeeds and stores 0 (the guard in
`update_listing` rejects only negative values), whereas the claim says a
non-positive quantity must fail with Validation. -/
theorem update_listing_zero_quantity_cex :
    okQuantity (update_listing 1 10 reqZeroQty wdb) = some 0 := by decide

/-- C8 amended: `update_listing` called by the seller with a *negative*
provided quantity fails with `badRequest` and leaves the store unchanged,
while zero is accepted; `create_listing`, in contrast, rejects every
non-positive quantity with `badRequest`. -/
theorem listing_quantity_validation :
    (∀ (a lid : Nat) (req : ListingUpdateReq) (db : DB) (l : ListingRec)
      (q : Int),
      lookupListing db lid = some l → l.seller_id = a →
      req.quantity_available = some q → q < 0 →
      update_listing a lid req db = .error .badRequest ∧
      step (.opUpdateListing a lid req) db = db) ∧
    (∀ (a : Nat) (req : ListingCreateReq) (db : DB),
      req.quantity_available ≤ 0 →
      create_listing a req db = .error .badRequest) := by
  constructor
  · intro a lid req db l q hl hown hq hneg
    have hu : update_listing a lid req db = .error .badRequest := by
      simp only [update_listing, hl]
      rw [if_neg (by simp [hown])]
      by_cases hp :
        (match req.price with | some p => decide (p ≤ 0) | none => false) = true
      · rw [if_pos hp]
      · rw [if_neg hp, if_pos (by rw [hq]; simpa using hneg)]
    exact ⟨hu, by simp [step, hu]⟩
  · intro a req db hq
    by_cases hd : req.concert_date ≤ db.today
    · simp [create_listing, hd]
    · by_cases hp : req.price ≤ 0
      · simp [create_listing, hd, hp]
      · simp [create_listing, hd, hp, hq]

/-- C8 amended witness: a negative quantity on listing 10 (owned by actor
1) is rejected and `wdb` is unchanged. -/
theorem listing_quantity_validation_witness :
    update_listing 1 10 reqNegQty wdb = .error .badRequest ∧
    step (.opUpdateListing 1 10 reqNegQty) wdb = wdb :=
  listing_quantity_validation.1 1 10 reqNegQty wdb wListing (-1) (by decide)
    (by decide) (by decide) (by decide)

/-! ## C9 — missing profile row: review succeeds, recomputation skipped -/

/-- C9: when the reviewed user exists but has no profile row, a valid
`create_review` still succeeds and the post-state is exactly the old store
with the new review appended (and the review counter bumped): in
particular no profile field is written and no error is raised, because
`update_seller_rating` silently skips a missing profile. -/
theorem create_review_skips_missing_profile (actor S : Nat)
    (lid : Option Nat) (r : Int) (c : Option String) (db : DB)
    (hself : S ≠ actor) (h1 : 1 ≤ r) (h5 : r ≤ 5)
    (huser : (lookupUser db S).isSome = true)
    (hlist : (truthy lid && (lookupListing db (lid.getD 0)).isNone) = false)
    (hprof : lookupProfile db S = none) :
    ∃ rev, create_review actor S lid r c db =
      .ok (rev, { db with reviews := db.reviews ++ [rev],
                          nextReviewId := db.nextReviewId + 1 }) := by
  have hbe : (S == actor) = false := by simpa using hself
  have hr : ¬(r < 1 ∨ r > 5) := by omega
  rcases Option.isSome_iff_exists.mp huser with ⟨u, hu⟩
  refine ⟨{ id := db.nextReviewId, reviewer_id := actor,
            reviewed_user_id := S, listing_id := lid, rating := r,
            comment := c, created_at := db.now }, ?_⟩
  have hprof1 : lookupProfile
      { db with
        reviews := db.reviews ++
          [{ id := db.nextReviewId, reviewer_id := actor,
             reviewed_user_id := S, listing_id := lid, rating := r,
             comment := c, created_at := db.now }]
        nextReviewId := db.nextReviewId + 1 } S = none := hprof
  simp [create_review, hbe, hr, hu, hlist, update_seller_rating, hprof1]

/-- C9 witness: user 3 exists in `wdb` with no profile row; reviewing them
succeeds and only appends the review. -/
theorem create_review_skips_missing_profile_witness :
    ∃ rev, create_review 1 3 none 5 none wdb =
      .ok (rev, { wdb with reviews := wdb.reviews ++ [rev],
                           nextReviewId := wdb.nextReviewId + 1 }) :=
  create_review_skips_missing_profile 1 3 none 5 none wdb (by decide)
    (by decide) (by decide) (by decide) (by decide) (by decide)

/-! ## C5 — conversation fetch marks received messages read, idempotently -/

theorem markIfUnread_id (cu o : Nat) (m : MessageRec) :
    (markIfUnread cu o m).id = m.id := by
  unfold markIfUnread
  split <;> rfl

theorem markIfUnread_read_mono (cu o : Nat) (m : MessageRec)
    (h : m.is_read = true) : (markIfUnread cu o m).is_read = true := by
  unfold markIfUnread
  split <;> simp [h]

theorem markIfUnread_idem (cu o : Nat) (m : MessageRec) :
    markIfUnread cu o (markIfUnread cu o m) = markIfUnread cu o m := by
  by_cases h : (m.sender_id == o && m.receiver_id == cu && !m.is_read) = true
  · have h1 : markIfUnread cu o m = { m with is_read := true } := by
      unfold markIfUnread
      rw [if_pos h]
    rw [h1]
    unfold markIfUnread
    rw [if_neg (by simp)]
  · have h1 : markIfUnread cu o m = m := by
      unfold markIfUnread
      rw [if_neg h]
    rw [h1, h1]

theorem map_markIfUnread_idem (cu o : Nat) (l : List MessageRec) :
    (l.map (markIfUnread cu o)).map (markIfUnread cu o) =
      l.map (markIfUnread cu o) := by
  induction l with
  | nil => rfl
  | cons a t ih => simp only [List.map_cons, markIfUnread_idem, ih]

/-- C5: a successful fetch of the conversation between the actor `cu` and
counterparty `other` leaves every message from `other` to `cu` read in the
post-state, and the fetch is idempotent: run on its own post-state it
returns the same list and the same state. -/
theorem conversation_marks_read_idempotent (cu other : Nat) (db : DB)
    (res : List MessageRec) (db' : DB)
    (h : get_conversation cu other db = .ok (res, db')) :
    (∀ m' ∈ db'.messages, m'.sender_id = other → m'.receiver_id = cu →
      m'.is_read = true) ∧
    get_conversation cu other db' = .ok (res, db') := by
  simp only [get_conversation] at h
  cases hu : lookupUser db other with
  | none =>
    rw [hu] at h
    exact absurd h (by simp)
  | some u =>
    rw [hu] at h
    simp only [Except.ok.injEq, Prod.mk.injEq] at h
    obtain ⟨h1, h2⟩ := h
    subst h2
    constructor
    · intro m' hm' hs hr
      rcases List.mem_map.mp hm' with ⟨m0, hm0, heq⟩
      by_cases hc :
          (m0.sender_id == other && m0.receiver_id == cu && !m0.is_read) = true
      · rw [← heq]
        unfold markIfUnread
        rw [if_pos hc]
      · have heq' : m' = m0 := by
          rw [← heq]
          unfold markIfUnread
          rw [if_neg hc]
        subst heq'
        rw [hs, hr] at hc
        simpa using hc
    · have hu' : lookupUser
          { db with messages := db.messages.map (markIfUnread cu other) }
          other = some u := hu
      simp only [get_conversation, hu', Except.ok.injEq, Prod.mk.injEq]
      constructor
      · rw [← h1, map_markIfUnread_idem]
      · rw [map_markIfUnread_idem]

/-- C5 witness: fetching the conversation between users 1 and 2 in the
post-state of the first fetch returns the same list and state. -/
theorem conversation_marks_read_idempotent_witness :
    get_conversation 1 2 wConvDb = .ok ([wMsgARead, wMsgB], wConvDb) :=
  (conversation_marks_read_idempotent 1 2 wdb [wMsgARead, wMsgB] wConvDb
    (by decide)).2

/-! ## C10 — frame condition of update_listing -/

theorem applyListingUpdate_fields (req : ListingUpdateReq) (now : Nat)
    (l : ListingRec) :
    (applyListingUpdate req now l).seller_id = l.seller_id ∧
    (applyListingUpdate req now l).artist_name = l.artist_name ∧
    (applyListingUpdate req now l).concert_date = l.concert_date ∧
    (applyListingUpdate req now l).venue_name = l.venue_name ∧
    (applyListingUpdate req now l).section_ = l.section_ ∧
    (applyListingUpdate req now l).row = l.row ∧
    (applyListingUpdate req now l).seat_number = l.seat_number ∧
    (applyListingUpdate req now l).created_at = l.created_at ∧
    (req.price = none → (applyListingUpdate req now l).price = l.price) ∧
    (req.quantity_available = none →
      (applyListingUpdate req now l).quantity_available =
        l.quantity_available) ∧
    (req.description = none →
      (applyListingUpdate req now l).description = l.description) ∧
    (req.is_available = none →
      (applyListingUpdate req now l).is_available = l.is_available) ∧
    (applyListingUpdate req now l).updated_at = now := by
  rcases req with ⟨p, q, d, b⟩
  cases p <;> cases q <;> cases d <;> cases b <;> simp [applyListingUpdate]

/-- C10: a successful `update_listing` changes nothing outside the
`listings` table; in the `listings` table exactly the first row with the
target id is rewritten (every other listing, before and after it, is kept
verbatim), and on that row the fields `seller_id`, `artist_name`,
`concert_date`, `venue_name`, `section`, `row`, `seat_number`,
`created_at` are preserved, every omitted (`none`) request field leaves
its column unchanged, and `updated_at` is set to the request clock. -/
theorem update_listing_frame (a lid : Nat) (req : ListingUpdateReq)
    (db : DB) (res : ListingRec) (db' : DB)
    (h : update_listing a lid req db = .ok (res, db')) :
    db'.users = db.users ∧ db'.profiles = db.profiles ∧
    db'.messages = db.messages ∧ db'.reviews = db.reviews ∧
    db'.proofs = db.proofs ∧ db'.now = db.now ∧ db'.today = db.today ∧
    db'.nextUserId = db.nextUserId ∧ db'.nextProfileId = db.nextProfileId ∧
    db'.nextListingId = db.nextListingId ∧
    db'.nextMessageId = db.nextMessageId ∧
    db'.nextReviewId = db.nextReviewId ∧ db'.nextProofId = db.nextProofId ∧
    ∃ pre post l l',
      db.listings = pre ++ l :: post ∧
      (∀ x ∈ pre, (x.id == lid) = false) ∧ l.id = lid ∧
      db'.listings = pre ++ l' :: post ∧
      l'.seller_id = l.seller_id ∧ l'.artist_name = l.artist_name ∧
      l'.concert_date = l.concert_date ∧ l'.venue_name = l.venue_name ∧
      l'.section_ = l.section_ ∧ l'.row = l.row ∧
      l'.seat_number = l.seat_number ∧ l'.created_at = l.created_at ∧
      (req.price = none → l'.price = l.price) ∧
      (req.quantity_available = none →
        l'.quantity_available = l.quantity_available) ∧
      (req.description = none → l'.description = l.description) ∧
      (req.is_available = none → l'.is_available = l.is_available) ∧
      l'.updated_at = db.now := by
  simp only [update_listing] at h
  cases hl : lookupListing db lid with
  | none =>
    rw [hl] at h
    exact absurd h (by simp)
  | some l =>
    rw [hl] at h
    simp only at h
    split at h
    · exact absurd h (by simp)
    · split at h
      · exact absurd h (by simp)
      · split at h
        · exact absurd h (by simp)
        · rw [Except.ok.injEq, Prod.mk.injEq] at h
          obtain ⟨h1, h2⟩ := h
          subst h2
          refine ⟨rfl, rfl, rfl, rfl, rfl, rfl, rfl, rfl, rfl, rfl, rfl,
            rfl, rfl, ?_⟩
          have hl' : db.listings.find? (fun x => x.id == lid) = some l := hl
          have hid : (l.id == lid) = true := by
            have h0 := List.find?_some hl'
            simpa using h0
          rcases updateFirst_decomp hl' (applyListingUpdate req db.now) with
            ⟨pre, post, hsplit, hpre, hup⟩
          obtain ⟨f1, f2, f3, f4, f5, f6, f7, f8, f9, f10, f11, f12, f13⟩ :=
            applyListingUpdate_fields req db.now l
          exact ⟨pre, post, l, applyListingUpdate req db.now l, hsplit, hpre,
            by simpa using hid, hup, f1, f2, f3, f4, f5, f6, f7, f8, f9,
            f10, f11, f12, f13⟩

/-- C10 witness: the seller raises the price of listing 10; the messages
table is untouched. -/
theorem update_listing_frame_witness : wdb60.messages = wdb.messages :=
  (update_listing_frame 1 10 req60 wdb wListing60 wdb60 (by decide)).2.2.1

/-! ## Per-operation inversion lemmas (profiles / messages shape) -/

theorem create_review_ok_inv {a S : Nat} {lid : Option Nat} {r : Int}
    {c : Option String} {db : DB} {rev : ReviewRec} {db' : DB}
    (h : create_review a S lid r c db = .ok (rev, db')) :
    rev = { id := db.nextReviewId, reviewer_id := a, reviewed_user_id := S,
            listing_id := lid, rating := r, comment := c,
            created_at := db.now } ∧
    db' = update_seller_rating S
      { db with reviews := db.reviews ++ [rev],
                nextReviewId := db.nextReviewId + 1 } := by
  simp only [create_review] at h
  split at h
  · exact absurd h (by simp)
  · split at h
    · exact absurd h (by simp)
    · split at h
      · exact absurd h (by simp)
      · split at h
        · exact absurd h (by simp)
        · rw [Except.ok.injEq, Prod.mk.injEq] at h
          obtain ⟨h1, h2⟩ := h
          subst h1
          exact ⟨rfl, h2.symm⟩

theorem update_seller_rating_reviews (S : Nat) (db : DB) :
    (update_seller_rating S db).reviews = db.reviews := by
  cases hq : lookupProfile db S <;> simp [update_seller_rating, hq]

theorem update_seller_rating_messages (S : Nat) (db : DB) :
    (update_seller_rating S db).messages = db.messages := by
  cases hq : lookupProfile db S <;> simp [update_seller_rating, hq]

theorem signup_ok_shape {u e pw : String} {db : DB} {r : UserRec} {db' : DB}
    (h : signup u e pw db = .ok (r, db')) :
    (∃ np, db'.profiles = db.profiles ++ [np]) ∧
    db'.messages = db.messages ∧
    db'.nextMessageId = db.nextMessageId := by
  simp only [signup] at h
  split at h
  · exact absurd h (by simp)
  · split at h
    · exact absurd h (by simp)
    · rw [Except.ok.injEq, Prod.mk.injEq] at h
      obtain ⟨h1, h2⟩ := h
      subst h2
      exact ⟨⟨_, rfl⟩, rfl, rfl⟩

theorem update_user_profile_ok_shape {a : Nat} {bio pic : Option String}
    {db : DB} {r : ProfileRec} {db' : DB}
    (h : update_user_profile a bio pic db = .ok (r, db')) :
    (∃ f : ProfileRec → ProfileRec,
      (∀ x, (f x).user_id = x.user_id) ∧
      (∀ x, (f x).is_verified_seller = x.is_verified_seller) ∧
      db'.profiles = updateFirst (fun q => q.user_id == a) f db.profiles) ∧
    db'.messages = db.messages ∧
    db'.nextMessageId = db.nextMessageId := by
  simp only [update_user_profile] at h
  split at h
  · exact absurd h (by simp)
  · rw [Except.ok.injEq, Prod.mk.injEq] at h
    obtain ⟨h1, h2⟩ := h
    subst h2
    refine ⟨⟨_, ?_, ?_, rfl⟩, rfl, rfl⟩
    · intro x
      cases bio <;> cases pic <;> rfl
    · intro x
      cases bio <;> cases pic <;> rfl

theorem upload_seller_proof_ok_shape {a : Nat} {url : String}
    {d : Option String} {db : DB} {r : ProofRec} {db' : DB}
    (h : upload_seller_proof a url d db = .ok (r, db')) :
    db'.profiles = db.profiles ∧ db'.messages = db.messages ∧
    db'.nextMessageId = db.nextMessageId := by
  simp only [upload_seller_proof, Except.ok.injEq, Prod.mk.injEq] at h
  obtain ⟨h1, h2⟩ := h
  subst h2
  exact ⟨rfl, rfl, rfl⟩

theorem create_listing_ok_shape {a : Nat} {req : ListingCreateReq}
    {db : DB} {r : ListingRec} {db' : DB}
    (h : create_listing a req db = .ok (r, db')) :
    db'.profiles = db.profiles ∧ db'.messages = db.messages ∧
    db'.nextMessageId = db.nextMessageId := by
  simp only [create_listing] at h
  split at h
  · exact absurd h (by simp)
  · split at h
    · exact absurd h (by simp)
    · split at h
      · exact absurd h (by simp)
      · rw [Except.ok.injEq, Prod.mk.injEq] at h
        obtain ⟨h1, h2⟩ := h
        subst h2
        exact ⟨rfl, rfl, rfl⟩

theorem update_listing_ok_shape {a lid : Nat} {req : ListingUpdateReq}
    {db : DB} {r : ListingRec} {db' : DB}
    (h : update_listing a lid req db = .ok (r, db')) :
    db'.profiles = db.profiles ∧ db'.messages = db.messages ∧
    db'.nextMessageId = db.nextMessageId := by
  simp only [update_listing] at h
  split at h
  · exact absurd h (by simp)
  · split at h
    · exact absurd h (by simp)
    · split at h
      · exact absurd h (by simp)
      · split at h
        · exact absurd h (by simp)
        · rw [Except.ok.injEq, Prod.mk.injEq] at h
          obtain ⟨h1, h2⟩ := h
          subst h2
          exact ⟨rfl, rfl, rfl⟩

theorem delete_listing_ok_shape {a lid : Nat} {db db' : DB}
    (h : delete_listing a lid db = .ok db') :
    db'.profiles = db.profiles ∧
    (∀ m' ∈ db'.messages, m' ∈ db.messages) ∧
    List.Sublist db'.messages db.messages ∧
    db'.nextMessageId = db.nextMessageId := by
  simp only [delete_listing] at h
  split at h
  · exact absurd h (by simp)
  · split at h
    · exact absurd h (by simp)
    · rw [Except.ok.injEq] at h
      subst h
      exact ⟨rfl, fun m' hm' => (List.mem_filter.mp hm').1,
        List.filter_sublist _, rfl⟩

theorem send_message_ok_shape {a rcv : Nat} {txt : String}
    {lid : Option Nat} {db : DB} {m : MessageRec} {db' : DB}
    (h : send_message a rcv txt lid db = .ok (m, db')) :
    db'.profiles = db.profiles ∧
    (∃ nm, db'.messages = db.messages ++ [nm] ∧
      nm.id = db.nextMessageId ∧ nm.is_read = false) ∧
    db'.nextMessageId = db.nextMessageId + 1 := by
  simp only [send_message] at h
  split at h
  · exact absurd h (by simp)
  · split at h
    · exact absurd h (by simp)
    · split at h
      · exact absurd h (by simp)
      · split at h
        · exact absurd h (by simp)
        · rw [Except.ok.injEq, Prod.mk.injEq] at h
          obtain ⟨h1, h2⟩ := h
          subst h2
          exact ⟨rfl, ⟨_, rfl, rfl, rfl⟩, rfl⟩

theorem get_conversation_ok_shape {cu o : Nat} {db : DB}
    {res : List MessageRec} {db' : DB}
    (h : get_conversation cu o db = .ok (res, db')) :
    db'.profiles = db.profiles ∧
    db'.messages = db.messages.map (markIfUnread cu o) ∧
    db'.nextMessageId = db.nextMessageId := by
  simp only [get_conversation] at h
  split at h
  · exact absurd h (by simp)
  · rw [Except.ok.injEq, Prod.mk.injEq] at h
    obtain ⟨h1, h2⟩ := h
    subst h2
    exact ⟨rfl, rfl, rfl⟩

theorem get_message_ok_shape {cu mid : Nat} {db : DB} {m : MessageRec}
    {db' : DB} (h : get_message cu mid db = .ok (m, db')) :
    db'.profiles = db.profiles ∧
    (db'.messages = db.messages ∨
      db'.messages =
        updateFirst (fun x => x.id == mid)
          (fun x => { x with is_read := true }) db.messages) ∧
    db'.nextMessageId = db.nextMessageId := by
  simp only [get_message] at h
  split at h
  · exact absurd h (by simp)
  · split at h
    · exact absurd h (by simp)
    · split at h
      · rw [Except.ok.injEq, Prod.mk.injEq] at h
        obtain ⟨h1, h2⟩ := h
        subst h2
        exact ⟨rfl, Or.inr rfl, rfl⟩
      · rw [Except.ok.injEq, Prod.mk.injEq] at h
        obtain ⟨h1, h2⟩ := h
        subst h2
        exact ⟨rfl, Or.inl rfl, rfl⟩

theorem mark_as_read_ok_shape {cu mid : Nat} {db : DB} {m : MessageRec}
    {db' : DB} (h : mark_as_read cu mid db = .ok (m, db')) :
    db'.profiles = db.profiles ∧
    db'.messages =
      updateFirst (fun x => x.id == mid)
        (fun x => { x with is_read := true }) db.messages ∧
    db'.nextMessageId = db.nextMessageId := by
  simp only [mark_as_read] at h
  split at h
  · exact absurd h (by simp)
  · split at h
    · exact absurd h (by simp)
    · rw [Except.ok.injEq, Prod.mk.injEq] at h
      obtain ⟨h1, h2⟩ := h
      subst h2
      exact ⟨rfl, rfl, rfl⟩

theorem delete_message_ok_shape {cu mid : Nat} {db db' : DB}
    (h : delete_message cu mid db = .ok db') :
    db'.profiles = db.profiles ∧
    (∀ m' ∈ db'.messages, m' ∈ db.messages) ∧
    db'.messages = eraseFirstP (fun x => x.id == mid) db.messages ∧
    db'.nextMessageId = db.nextMessageId := by
  simp only [delete_message] at h
  split at h
  · exact absurd h (by simp)
  · split at h
    · exact absurd h (by simp)
    · rw [Except.ok.injEq] at h
      subst h
      exact ⟨rfl, fun m' hm' => mem_eraseFirstP hm', rfl, rfl⟩

/-! ## C2 — the verified-seller latch -/

theorem lookup_eq_of_profiles_eq {db2 db : DB}
    (h : db2.profiles = db.profiles) (S : Nat) :
    lookupProfile db2 S = lookupProfile db S := by
  unfold lookupProfile
  rw [h]

theorem latch_of_lookup_some {db2 : DB} {S : Nat} {p p' : ProfileRec}
    (h2 : lookupProfile db2 S = some p) (hpv : p.is_verified_seller = true)
    (hp' : lookupProfile db2 S = some p') : p'.is_verified_seller = true := by
  rw [h2] at hp'
  injection hp' with h0
  subst h0
  exact hpv

theorem find?_recompute_latch (T S : Nat) (profiles : List ProfileRec)
    (A : ℚ) (cnt now : Nat) (p p' : ProfileRec)
    (hp0 : profiles.find? (fun r => r.user_id == S) = some p)
    (hpv : p.is_verified_seller = true)
    (hp1 : (updateFirst (fun r => r.user_id == T)
        (recomputeProfile A cnt now) profiles).find?
        (fun r => r.user_id == S) = some p') :
    p'.is_verified_seller = true := by
  have hmono : ∀ x : ProfileRec, x.is_verified_seller = true →
      (recomputeProfile A cnt now x).is_verified_seller = true := by
    intro x hx
    show (if cnt ≥ 5 ∧ A ≥ 9/2 then true else x.is_verified_seller) = true
    split
    · rfl
    · exact hx
  have hkey : ∀ x : ProfileRec,
      (recomputeProfile A cnt now x).user_id = x.user_id := fun x => rfl
  exact @find?_updateFirst_key_mono ProfileRec (fun r => r.user_id)
    (fun r => r.is_verified_seller) (fun r => r.user_id == T)
    (recomputeProfile A cnt now) hkey hmono S profiles p p' hp0 hpv hp1

/-- The recomputation never clears the latch: any profile row found after
`update_seller_rating` that was verified before is still verified. -/
theorem update_seller_rating_latch (T : Nat) (db : DB) (S : Nat)
    (p p' : ProfileRec) (hp : lookupProfile db S = some p)
    (hpv : p.is_verified_seller = true)
    (hp' : lookupProfile (update_seller_rating T db) S = some p') :
    p'.is_verified_seller = true := by
  cases hq : lookupProfile db T with
  | none =>
    simp only [update_seller_rating, hq] at hp'
    exact latch_of_lookup_some hp hpv hp'
  | some q0 =>
    simp only [update_seller_rating, hq] at hp'
    have hp0 : db.profiles.find? (fun r => r.user_id == S) = some p := hp
    exact find?_recompute_latch T S db.profiles _ _ _ p p' hp0 hpv hp'

/-- The threshold actually fires: a profile row found after
`update_seller_rating` whose stored average is at least 4.5, when the
subject has at least 5 reviews, is verified. -/
theorem update_seller_rating_verified (S : Nat) (db : DB) (p' : ProfileRec)
    (hp' : lookupProfile (update_seller_rating S db) S = some p')
    (hcount : 5 ≤ (reviewsFor db S).length)
    (havg : (9:ℚ)/2 ≤ p'.average_rating) :
    p'.is_verified_seller = true := by
  cases hq : lookupProfile db S with
  | none =>
    simp only [update_seller_rating, hq] at hp'
    exact absurd hp' (by simp)
  | some p0 =>
    simp only [update_seller_rating, hq] at hp'
    have hq' : db.profiles.find? (fun r => r.user_id == S) = some p0 := hq
    have hkey : ((recomputeProfile
        (match (if (reviewsFor db S).isEmpty then none
          else some (((reviewsFor db S).map (fun r => (r.rating : ℚ))).sum /
            ((reviewsFor db S).length : ℚ))) with
         | some a => if a = 0 then 0 else a
         | none => 0)
        (reviewsFor db S).length db.now p0).user_id == S) = true := by
      have h0 := List.find?_some hq'
      simpa [recomputeProfile] using h0
    have h2 := (find?_updateFirst_self hq' hkey).symm.trans hp'
    injection h2 with h2
    subst h2
    simp only [recomputeProfile]
    rw [if_pos ⟨hcount, havg⟩]

/-- Review counting is unaffected by the profile update, so the threshold
hypothesis can be read off the final state. -/
theorem create_review_verified_aux (S : Nat) (db1 : DB) (p' : ProfileRec)
    (hp' : lookupProfile (update_seller_rating S db1) S = some p')
    (hcount : 5 ≤ (reviewsFor (update_seller_rating S db1) S).length)
    (havg : (9:ℚ)/2 ≤ p'.average_rating) :
    p'.is_verified_seller = true := by
  have hr : reviewsFor (update_seller_rating S db1) S = reviewsFor db1 S := by
    unfold reviewsFor
    rw [update_seller_rating_reviews]
  rw [hr] at hcount
  exact update_seller_rating_verified S db1 p' hp' hcount havg

/-- C2: the `is_verified_seller` flag is a one-way latch.  First, after a
successful review insertion for `S`, if `S`'s profile row exists, `S` has
at least 5 reviews and the stored average is at least 4.5, the flag is
true.  Second, no mutating operation of the system ever turns the flag of
any profile row from true back to false — in particular a later low-rated
review leaves it true even when the average drops below the threshold. -/
theorem verified_seller_latch :
    (∀ (actor S : Nat) (lid : Option Nat) (r : Int) (c : Option String)
      (db : DB) (rev : ReviewRec) (db' : DB) (p' : ProfileRec),
      create_review actor S lid r c db = .ok (rev, db') →
      lookupProfile db' S = some p' →
      5 ≤ (reviewsFor db' S).length →
      (9:ℚ)/2 ≤ p'.average_rating →
      p'.is_verified_seller = true) ∧
    (∀ (op : Op) (db : DB) (S : Nat) (p p' : ProfileRec),
      lookupProfile db S = some p → p.is_verified_seller = true →
      lookupProfile (step op db) S = some p' →
      p'.is_verified_seller = true) := by
  constructor
  · intro actor S lid r c db rev db' p' h hp' hcount havg
    obtain ⟨hrev, hdb'⟩ := create_review_ok_inv h
    subst hdb'
    exact create_review_verified_aux S _ p' hp' hcount havg
  · intro op db S p p' hp hpv hp'
    cases op with
    | opSignup u e pw =>
      cases hE : signup u e pw db with
      | error err =>
        simp only [step, hE] at hp'
        exact latch_of_lookup_some hp hpv hp'
      | ok pr =>
        obtain ⟨r0, db2⟩ := pr
        simp only [step, hE] at hp'
        obtain ⟨⟨np, hprof⟩, _⟩ := signup_ok_shape hE
        refine latch_of_lookup_some ?_ hpv hp'
        show db2.profiles.find? (fun q => q.user_id == S) = some p
        rw [hprof]
        exact find?_append_some hp
    | opUpdateProfile a b pic =>
      cases hE : update_user_profile a b pic db with
      | error err =>
        simp only [step, hE] at hp'
        exact latch_of_lookup_some hp hpv hp'
      | ok pr =>
        obtain ⟨r0, db2⟩ := pr
        simp only [step, hE] at hp'
        obtain ⟨⟨f, hkey, hgoodf, hprof⟩, _⟩ := update_user_profile_ok_shape hE
        have hp0 : db.profiles.find? (fun q => q.user_id == S) = some p := hp
        have hp1 : (updateFirst (fun q => q.user_id == a) f db.profiles).find?
            (fun q => q.user_id == S) = some p' := by
          rw [← hprof]
          exact hp'
        exact find?_updateFirst_key_mono hkey
          (fun x hx => by rw [hgoodf x]; exact hx) S db.profiles p p' hp0
          hpv hp1
    | opCreateReview a t lid0 r0 c0 =>
      cases hE : create_review a t lid0 r0 c0 db with
      | error err =>
        simp only [step, hE] at hp'
        exact latch_of_lookup_some hp hpv hp'
      | ok pr =>
        obtain ⟨rv, db2⟩ := pr
        simp only [step, hE] at hp'
        obtain ⟨hrev, hdb2⟩ := create_review_ok_inv hE
        subst hdb2
        have hp1 : lookupProfile
            { db with reviews := db.reviews ++ [rv],
                      nextReviewId := db.nextReviewId + 1 } S = some p := hp
        exact update_seller_rating_latch t _ S p p' hp1 hpv hp'
    | opUploadProof a url d =>
      cases hE : upload_seller_proof a url d db with
      | error err =>
        simp only [step, hE] at hp'
        exact latch_of_lookup_some hp hpv hp'
      | ok pr =>
        obtain ⟨r0, db2⟩ := pr
        simp only [step, hE] at hp'
        exact latch_of_lookup_some
          ((lookup_eq_of_profiles_eq (upload_seller_proof_ok_shape hE).1
            S).trans hp) hpv hp'
    | opCreateListing a req =>
      cases hE : create_listing a req db with
      | error err =>
        simp only [step, hE] at hp'
        exact latch_of_lookup_some hp hpv hp'
      | ok pr =>
        obtain ⟨r0, db2⟩ := pr
        simp only [step, hE] at hp'
        exact latch_of_lookup_some
          ((lookup_eq_of_profiles_eq (create_listing_ok_shape hE).1
            S).trans hp) hpv hp'
    | opUpdateListing a lid req =>
      cases hE : update_listing a lid req db with
      | error err =>
        simp only [step, hE] at hp'
        exact latch_of_lookup_some hp hpv hp'
      | ok pr =>
        obtain ⟨r0, db2⟩ := pr
        simp only [step, hE] at hp'
        exact latch_of_lookup_some
          ((lookup_eq_of_profiles_eq (update_listing_ok_shape hE).1
            S).trans hp) hpv hp'
    | opDeleteListing a lid =>
      cases hE : delete_listing a lid db with
      | error err =>
        simp only [step, hE] at hp'
        exact latch_of_lookup_some hp hpv hp'
      | ok db2 =>
        simp only [step, hE] at hp'
        exact latch_of_lookup_some
          ((lookup_eq_of_profiles_eq (delete_listing_ok_shape hE).1
            S).trans hp) hpv hp'
    | opSendMessage a rcv txt lid =>
      cases hE : send_message a rcv txt lid db with
      | error err =>
        simp only [step, hE] at hp'
        exact latch_of_lookup_some hp hpv hp'
      | ok pr =>
        obtain ⟨r0, db2⟩ := pr
        simp only [step, hE] at hp'
        exact latch_of_lookup_some
          ((lookup_eq_of_profiles_eq (send_message_ok_shape hE).1
            S).trans hp) hpv hp'
    | opGetConversation a o =>
      cases hE : get_conversation a o db with
      | error err =>
        simp only [step, hE] at hp'
        exact latch_of_lookup_some hp hpv hp'
      | ok pr =>
        obtain ⟨r0, db2⟩ := pr
        simp only [step, hE] at hp'
        exact latch_of_lookup_some
          ((lookup_eq_of_profiles_eq (get_conversation_ok_shape hE).1
            S).trans hp) hpv hp'
    | opGetMessage a mid =>
      cases hE : get_message a mid db with
      | error err =>
        simp only [step, hE] at hp'
        exact latch_of_lookup_some hp hpv hp'
      | ok pr =>
        obtain ⟨r0, db2⟩ := pr
        simp only [step, hE] at hp'
        exact latch_of_lookup_some
          ((lookup_eq_of_profiles_eq (get_message_ok_shape hE).1
            S).trans hp) hpv hp'
    | opMarkRead a mid =>
      cases hE : mark_as_read a mid db with
      | error err =>
        simp only [step, hE] at hp'
        exact latch_of_lookup_some hp hpv hp'
      | ok pr =>
        obtain ⟨r0, db2⟩ := pr
        simp only [step, hE] at hp'
        exact latch_of_lookup_some
          ((lookup_eq_of_profiles_eq (mark_as_read_ok_shape hE).1
            S).trans hp) hpv hp'
    | opDeleteMessage a mid =>
      cases hE : delete_message a mid db with
      | error err =>
        simp only [step, hE] at hp'
        exact latch_of_lookup_some hp hpv hp'
      | ok db2 =>
        simp only [step, hE] at hp'
        exact latch_of_lookup_some
          ((lookup_eq_of_profiles_eq (delete_message_ok_shape hE).1
            S).trans hp) hpv hp'

/-- C2 witness: a rating-1 review for the verified user 2 drops the stored
average to 13/3 < 4.5 but leaves `is_verified_seller` true. -/
theorem verified_seller_latch_witness : wProfile2V'.is_verified_seller = true :=
  verified_seller_latch.2 (.opCreateReview 1 2 none 1 none) wdbV 2 wProfile2V
    wProfile2V' (by decide) (by decide) (by with_unfolding_all decide)

/-! ## C4 — the read flag is monotonic across every operation -/

theorem read_of_mem_same {db : DB}
    (hids : (db.messages.map (fun m => m.id)).Nodup)
    {m m' : MessageRec} (hm : m ∈ db.messages) (hr : m.is_read = true)
    (hm' : m' ∈ db.messages) (hid : m'.id = m.id) : m'.is_read = true := by
  have h0 := nodup_key_mem_eq hids hm' hm hid
  rw [h0]
  exact hr

/-- C4: in a store whose message ids are distinct and below the
autoincrement counter, a message whose read flag is true keeps it true
across every operation of the system: whatever `step` runs, any message of
the post-state carrying that id is still read.  (Fresh messages are born
unread, read-marking only sets the flag, deletion only removes rows.) -/
theorem message_read_monotonic (op : Op) (db : DB)
    (hids : (db.messages.map (fun m => m.id)).Nodup)
    (hfresh : ∀ m ∈ db.messages, m.id < db.nextMessageId)
    (m : MessageRec) (hm : m ∈ db.messages) (hr : m.is_read = true)
    (m' : MessageRec) (hm' : m' ∈ (step op db).messages)
    (hid : m'.id = m.id) : m'.is_read = true := by
  cases op with
  | opSignup u e pw =>
    cases hE : signup u e pw db with
    | error err =>
      simp only [step, hE] at hm'
      exact read_of_mem_same hids hm hr hm' hid
    | ok pr =>
      obtain ⟨r0, db2⟩ := pr
      simp only [step, hE] at hm'
      rw [(signup_ok_shape hE).2.1] at hm'
      exact read_of_mem_same hids hm hr hm' hid
  | opUpdateProfile a b pic =>
    cases hE : update_user_profile a b pic db with
    | error err =>
      simp only [step, hE] at hm'
      exact read_of_mem_same hids hm hr hm' hid
    | ok pr =>
      obtain ⟨r0, db2⟩ := pr
      simp only [step, hE] at hm'
      rw [(update_user_profile_ok_shape hE).2.1] at hm'
      exact read_of_mem_same hids hm hr hm' hid
  | opCreateReview a t lid0 r0 c0 =>
    cases hE : create_review a t lid0 r0 c0 db with
    | error err =>
      simp only [step, hE] at hm'
      exact read_of_mem_same hids hm hr hm' hid
    | ok pr =>
      obtain ⟨rv, db2⟩ := pr
      simp only [step, hE] at hm'
      obtain ⟨hrev, hdb2⟩ := create_review_ok_inv hE
      subst hdb2
      rw [update_seller_rating_messages] at hm'
      exact read_of_mem_same hids hm hr hm' hid
  | opUploadProof a url d =>
    cases hE : upload_seller_proof a url d db with
    | error err =>
      simp only [step, hE] at hm'
      exact read_of_mem_same hids hm hr hm' hid
    | ok pr =>
      obtain ⟨r0, db2⟩ := pr
      simp only [step, hE] at hm'
      rw [(upload_seller_proof_ok_shape hE).2.1] at hm'
      exact read_of_mem_same hids hm hr hm' hid
  | opCreateListing a req =>
    cases hE : create_listing a req db with
    | error err =>
      simp only [step, hE] at hm'
      exact read_of_mem_same hids hm hr hm' hid
    | ok pr =>
      obtain ⟨r0, db2⟩ := pr
      simp only [step, hE] at hm'
      rw [(create_listing_ok_shape hE).2.1] at hm'
      exact read_of_mem_same hids hm hr hm' hid
  | opUpdateListing a lid req =>
    cases hE : update_listing a lid req db with
    | error err =>
      simp only [step, hE] at hm'
      exact read_of_mem_same hids hm hr hm' hid
    | ok pr =>
      obtain ⟨r0, db2⟩ := pr
      simp only [step, hE] at hm'
      rw [(update_listing_ok_shape hE).2.1] at hm'
      exact read_of_mem_same hids hm hr hm' hid
  | opDeleteListing a lid =>
    cases hE : delete_listing a lid db with
    | error err =>
      simp only [step, hE] at hm'
      exact read_of_mem_same hids hm hr hm' hid
    | ok db2 =>
      simp only [step, hE] at hm'
      exact read_of_mem_same hids hm hr
        ((delete_listing_ok_shape hE).2.1 m' hm') hid
  | opSendMessage a rcv txt lid =>
    cases hE : send_message a rcv txt lid db with
    | error err =>
      simp only [step, hE] at hm'
      exact read_of_mem_same hids hm hr hm' hid
    | ok pr =>
      obtain ⟨r0, db2⟩ := pr
      simp only [step, hE] at hm'
      obtain ⟨-, ⟨nm, hmsg, hnid, -⟩, -⟩ := send_message_ok_shape hE
      rw [hmsg] at hm'
      rcases List.mem_append.mp hm' with hm2 | hm2
      · exact read_of_mem_same hids hm hr hm2 hid
      · have hnm : m' = nm := by simpa using hm2
        subst hnm
        have h1 := hfresh m hm
        have h2 : m.id = db.nextMessageId := hid.symm.trans hnid
        rw [h2] at h1
        exact absurd h1 (lt_irrefl _)
  | opGetConversation a o =>
    cases hE : get_conversation a o db with
    | error err =>
      simp only [step, hE] at hm'
      exact read_of_mem_same hids hm hr hm' hid
    | ok pr =>
      obtain ⟨r0, db2⟩ := pr
      simp only [step, hE] at hm'
      rw [(get_conversation_ok_shape hE).2.1] at hm'
      rcases List.mem_map.mp hm' with ⟨m0, hm0, heq⟩
      have hid0 : m0.id = m.id := by
        rw [← hid, ← heq, markIfUnread_id]
      have hm0m : m0 = m := nodup_key_mem_eq hids hm0 hm hid0
      subst hm0m
      rw [← heq]
      exact markIfUnread_read_mono _ _ _ hr
  | opGetMessage a mid =>
    cases hE : get_message a mid db with
    | error err =>
      simp only [step, hE] at hm'
      exact read_of_mem_same hids hm hr hm' hid
    | ok pr =>
      obtain ⟨r0, db2⟩ := pr
      simp only [step, hE] at hm'
      rcases (get_message_ok_shape hE).2.1 with hmsg | hmsg
      · rw [hmsg] at hm'
        exact read_of_mem_same hids hm hr hm' hid
      · rw [hmsg] at hm'
        rcases mem_updateFirst hm' with hm2 | ⟨y, hy, hpy, hyeq⟩
        · exact read_of_mem_same hids hm hr hm2 hid
        · subst hyeq
          rfl
  | opMarkRead a mid =>
    cases hE : mark_as_read a mid db with
    | error err =>
      simp only [step, hE] at hm'
      exact read_of_mem_same hids hm hr hm' hid
    | ok pr =>
      obtain ⟨r0, db2⟩ := pr
      simp only [step, hE] at hm'
      rw [(mark_as_read_ok_shape hE).2.1] at hm'
      rcases mem_updateFirst hm' with hm2 | ⟨y, hy, hpy, hyeq⟩
      · exact read_of_mem_same hids hm hr hm2 hid
      · subst hyeq
        rfl
  | opDeleteMessage a mid =>
    cases hE : delete_message a mid db with
    | error err =>
      simp only [step, hE] at hm'
      exact read_of_mem_same hids hm hr hm' hid
    | ok db2 =>
      simp only [step, hE] at hm'
      exact read_of_mem_same hids hm hr
        ((delete_message_ok_shape hE).2.1 m' hm') hid

/-- C4 witness: message 2 of `wdb` (1→2, already read) is still read after
user 1 fetches the conversation with user 2. -/
theorem message_read_monotonic_witness : wMsgB.is_read = true :=
  message_read_monotonic (.opGetConversation 1 2) wdb (by decide) (by decide)
    wMsgB (by decide) (by decide) wMsgB (by decide) (by decide)

theorem map_key_updateFirst {α β} (key : α → β) {p : α → Bool} {f : α → α}
    (hf : ∀ x, key (f x) = key x) (l : List α) :
    (updateFirst p f l).map key = l.map key := by
  induction l with
  | nil => rfl
  | cons a t ih =>
    by_cases hpa : p a = true
    · simp only [updateFirst, if_pos hpa, List.map_cons, hf]
    · simp only [updateFirst, if_neg hpa, List.map_cons, ih]

theorem sublist_eraseFirstP {α} (p : α → Bool) (l : List α) :
    List.Sublist (eraseFirstP p l) l := by
  induction l with
  | nil => exact List.Sublist.refl _
  | cons a t ih =>
    by_cases hpa : p a = true
    · simp only [eraseFirstP, if_pos hpa]
      exact List.sublist_cons_self a t
    · simp only [eraseFirstP, if_neg hpa]
      exact List.Sublist.cons₂ a ih

theorem update_seller_rating_nextMessageId (S : Nat) (db : DB) :
    (update_seller_rating S db).nextMessageId = db.nextMessageId := by
  cases hq : lookupProfile db S <;> simp [update_seller_rating, hq]

/-- The hypotheses of `message_read_monotonic` are themselves invariants:
every operation keeps the message ids pairwise distinct and below the
autoincrement counter, so they hold in every store reachable from one that
satisfies the schema's primary-key and autoincrement discipline. -/
theorem step_preserves_message_invariants (op : Op) (db : DB)
    (hids : (db.messages.map (fun m => m.id)).Nodup)
    (hfresh : ∀ m ∈ db.messages, m.id < db.nextMessageId) :
    ((step op db).messages.map (fun m => m.id)).Nodup ∧
    ∀ m ∈ (step op db).messages, m.id < (step op db).nextMessageId := by
  cases op with
  | opSignup u e pw =>
    cases hE : signup u e pw db with
    | error err =>
      simp only [step, hE]
      exact ⟨hids, hfresh⟩
    | ok pr =>
      obtain ⟨r0, db2⟩ := pr
      simp only [step, hE]
      obtain ⟨-, hmsg, hctr⟩ := signup_ok_shape hE
      rw [hmsg, hctr]
      exact ⟨hids, hfresh⟩
  | opUpdateProfile a b pic =>
    cases hE : update_user_profile a b pic db with
    | error err =>
      simp only [step, hE]
      exact ⟨hids, hfresh⟩
    | ok pr =>
      obtain ⟨r0, db2⟩ := pr
      simp only [step, hE]
      obtain ⟨-, hmsg, hctr⟩ := update_user_profile_ok_shape hE
      rw [hmsg, hctr]
      exact ⟨hids, hfresh⟩
  | opCreateReview a t lid0 r0 c0 =>
    cases hE : create_review a t lid0 r0 c0 db with
    | error err =>
      simp only [step, hE]
      exact ⟨hids, hfresh⟩
    | ok pr =>
      obtain ⟨rv, db2⟩ := pr
      simp only [step, hE]
      obtain ⟨hrev, hdb2⟩ := create_review_ok_inv hE
      subst hdb2
      rw [update_seller_rating_messages, update_seller_rating_nextMessageId]
      exact ⟨hids, hfresh⟩
  | opUploadProof a url d =>
    cases hE : upload_seller_proof a url d db with
    | error err =>
      simp only [step, hE]
      exact ⟨hids, hfresh⟩
    | ok pr =>
      obtain ⟨r0, db2⟩ := pr
      simp only [step, hE]
      obtain ⟨-, hmsg, hctr⟩ := upload_seller_proof_ok_shape hE
      rw [hmsg, hctr]
      exact ⟨hids, hfresh⟩
  | opCreateListing a req =>
    cases hE : create_listing a req db with
    | error err =>
      simp only [step, hE]
      exact ⟨hids, hfresh⟩
    | ok pr =>
      obtain ⟨r0, db2⟩ := pr
      simp only [step, hE]
      obtain ⟨-, hmsg, hctr⟩ := create_listing_ok_shape hE
      rw [hmsg, hctr]
      exact ⟨hids, hfresh⟩
  | opUpdateListing a lid req =>
    cases hE : update_listing a lid req db with
    | error err =>
      simp only [step, hE]
      exact ⟨hids, hfresh⟩
    | ok pr =>
      obtain ⟨r0, db2⟩ := pr
      simp only [step, hE]
      obtain ⟨-, hmsg, hctr⟩ := update_listing_ok_shape hE
      rw [hmsg, hctr]
      exact ⟨hids, hfresh⟩
  | opDeleteListing a lid =>
    cases hE : delete_listing a lid db with
    | error err =>
      simp only [step, hE]
      exact ⟨hids, hfresh⟩
    | ok db2 =>
      simp only [step, hE]
      obtain ⟨-, hmem, hsub, hctr⟩ := delete_listing_ok_shape hE
      rw [hctr]
      exact ⟨hids.sublist (hsub.map _), fun x hx => hfresh x (hmem x hx)⟩
  | opSendMessage a rcv txt lid =>
    cases hE : send_message a rcv txt lid db with
    | error err =>
      simp only [step, hE]
      exact ⟨hids, hfresh⟩
    | ok pr =>
      obtain ⟨r0, db2⟩ := pr
      simp only [step, hE]
      obtain ⟨-, ⟨nm, hmsg, hnid, -⟩, hctr⟩ := send_message_ok_shape hE
      rw [hmsg, hctr]
      constructor
      · rw [List.map_append, List.nodup_append]
        refine ⟨hids, by simp, ?_⟩
        simp only [List.map_cons, List.map_nil, List.disjoint_singleton]
        intro hmem2
        rcases List.mem_map.mp hmem2 with ⟨m0, hm0, hm0id⟩
        have h1 := hfresh m0 hm0
        rw [hm0id, hnid] at h1
        exact absurd h1 (lt_irrefl _)
      · intro x hx
        rcases List.mem_append.mp hx with hx | hx
        · exact Nat.lt_trans (hfresh x hx) (Nat.lt_succ_self _)
        · have hxnm : x = nm := by simpa using hx
          subst hxnm
          rw [hnid]
          exact Nat.lt_succ_self _
  | opGetConversation a o =>
    cases hE : get_conversation a o db with
    | error err =>
      simp only [step, hE]
      exact ⟨hids, hfresh⟩
    | ok pr =>
      obtain ⟨r0, db2⟩ := pr
      simp only [step, hE]
      obtain ⟨-, hmsg, hctr⟩ := get_conversation_ok_shape hE
      rw [hmsg, hctr]
      constructor
      · rw [List.map_map]
        have hc : ((fun m => m.id) ∘ markIfUnread a o) =
            fun (m : MessageRec) => m.id := by
          funext x
          exact markIfUnread_id a o x
        rw [hc]
        exact hids
      · intro x hx
        rcases List.mem_map.mp hx with ⟨m0, hm0, heq⟩
        rw [← heq, markIfUnread_id]
        exact hfresh m0 hm0
  | opGetMessage a mid =>
    cases hE : get_message a mid db with
    | error err =>
      simp only [step, hE]
      exact ⟨hids, hfresh⟩
    | ok pr =>
      obtain ⟨r0, db2⟩ := pr
      simp only [step, hE]
      obtain ⟨-, hm2, hctr⟩ := get_message_ok_shape hE
      rw [hctr]
      rcases hm2 with hmsg | hmsg <;> rw [hmsg]
      · exact ⟨hids, hfresh⟩
      · constructor
        · have heq := @map_key_updateFirst MessageRec Nat (fun m => m.id)
            (fun x => x.id == mid) (fun x => { x with is_read := true })
            (fun x => rfl) db.messages
          rw [heq]
          exact hids
        · intro x hx
          rcases mem_updateFirst hx with hx2 | ⟨y, hy, hpy, hyeq⟩
          · exact hfresh x hx2
          · subst hyeq
            exact hfresh y hy
  | opMarkRead a mid =>
    cases hE : mark_as_read a mid db with
    | error err =>
      simp only [step, hE]
      exact ⟨hids, hfresh⟩
    | ok pr =>
      obtain ⟨r0, db2⟩ := pr
      simp only [step, hE]
      obtain ⟨-, hmsg, hctr⟩ := mark_as_read_ok_shape hE
      rw [hmsg, hctr]
      constructor
      · have heq := @map_key_updateFirst MessageRec Nat (fun m => m.id)
          (fun x => x.id == mid) (fun x => { x with is_read := true })
          (fun x => rfl) db.messages
        rw [heq]
        exact hids
      · intro x hx
        rcases mem_updateFirst hx with hx2 | ⟨y, hy, hpy, hyeq⟩
        · exact hfresh x hx2
        · subst hyeq
          exact hfresh y hy
  | opDeleteMessage a mid =>
    cases hE : delete_message a mid db with
    | error err =>
      simp only [step, hE]
      exact ⟨hids, hfresh⟩
    | ok db2 =>
      simp only [step, hE]
      obtain ⟨-, hmem, hmsg, hctr⟩ := delete_message_ok_shape hE
      rw [hctr]
      exact ⟨by rw [hmsg]; exact hids.sublist ((sublist_eraseFirstP _ _).map _),
        fun x hx => hfresh x (hmem x hx)⟩

/-! ## C1 — the exact mean versus the Integer-declared column -/

/-- C1: after the six reviews [5,5,5,5,5,1] of user 2 the route stores in
`average_rating` exactly the arithmetic mean of the full review set,
26/6 = 13/3 — but 13/3 has denominator 3, so it is not an integer, while
the schema declares the column `average_rating = Column(Integer)`
(`models/user.py`): under the default Postgres `DATABASE_URL` the
persisted value is a rounded integer, not the mean the route computed and
the `float`-typed response schema promises. -/
theorem average_rating_integer_column_bug :
    (lookupProfile c1db 2).map (fun p => p.average_rating) =
      some ((13:ℚ)/3) ∧
    ((reviewsFor c1db 2).map (fun r => (r.rating : ℚ))).sum /
      ((reviewsFor c1db 2).length : ℚ) = (13:ℚ)/3 ∧
    ((13:ℚ)/3).den = 3 ∧ ((13:ℚ)/3).den ≠ 1 := by
  with_unfolding_all decide

end TicketApp
